import Mathlib

/-!
Verification of the browser client in `src/web_version2/static/js/main.js`
(Doctor-Schedule-Optimizer).  The file embeds, as executable Lean
definitions, the pieces of the client that the specification talks about:

* the ECMAScript `Date` calendar arithmetic used by `renderCalendar`
  (`new Date(y, m, 0).getDate()` and `new Date(y, m-1, 1).getDay()`),
  restricted to dates at or after 1970, which covers every date the
  client can produce (years 2025..2026 in the selectors);
* `renderCalendar` and the three drag listeners (`mousedown`,
  `mouseover`, `mouseup`) of the doctor page;
* `submitDaysOff` with its try/catch/finally control flow;
* the admin page run-stream state machine (`runScheduler`,
  `handleLogMessage`, `handleDoneEvent`, the `onerror` handler) together
  with `updateSubmissionStatus`;
* `renderScheduleTable`, the filterable results-table renderer.

Theorems about these definitions settle the specification claims.
-/

namespace MainJs

/-! ECMAScript Date arithmetic (proleptic Gregorian, days since epoch)

The client computes `daysInMonth` as `new Date(y, m, 0).getDate()` and the
weekday offset as `new Date(y, m - 1, 1).getDay()`.  We embed the relevant
part of the ECMA-262 date functions (`DayFromYear`, `MakeDay`,
`MonthFromTime`, `DateFromTime`, `WeekDay`) over `Nat`, valid for years
at or after 1970 — every argument the client supplies is ≥ 2025. -/

/-- ECMA-262 `InLeapYear`: leap years in the proleptic Gregorian calendar. -/
def inLeapYear (y : Nat) : Bool :=
  y % 4 == 0 && (y % 100 != 0 || y % 400 == 0)

/-- ECMA-262 `DayFromYear`: day number (days since 1970-01-01) of 1 January
of year `y`, for `y ≥ 1970`. -/
def dayFromYear (y : Nat) : Nat :=
  365 * (y - 1970) + (y - 1969) / 4 + (y - 1601) / 400 - (y - 1901) / 100

/-- Day-within-year offset at which month `mn` (0-based) starts, per the
ECMA-262 `MonthFromTime` table. -/
def monthStart (mn : Nat) (leap : Bool) : Nat :=
  let base :=
    match mn with
    | 0 => 0 | 1 => 31 | 2 => 59 | 3 => 90 | 4 => 120 | 5 => 151
    | 6 => 181 | 7 => 212 | 8 => 243 | 9 => 273 | 10 => 304 | _ => 334
  if leap && 2 ≤ mn then base + 1 else base

/-- ECMA-262 `YearFromTime` on a day number `D ≥ 0`: the greatest year `y`
with `dayFromYear y ≤ D`. -/
def yearFromDay (D : Nat) : Nat :=
  Nat.findGreatest (fun y => dayFromYear y ≤ D) (1971 + D / 365)

/-- ECMA-262 `MonthFromTime` as a function of the day within the year. -/
def monthFromDay (dwy : Nat) (leap : Bool) : Nat :=
  let l := if leap then 1 else 0
  if dwy < 31 then 0
  else if dwy < 59 + l then 1
  else if dwy < 90 + l then 2
  else if dwy < 120 + l then 3
  else if dwy < 151 + l then 4
  else if dwy < 181 + l then 5
  else if dwy < 212 + l then 6
  else if dwy < 243 + l then 7
  else if dwy < 273 + l then 8
  else if dwy < 304 + l then 9
  else if dwy < 334 + l then 10
  else 11

/-- ECMA-262 `MakeDay y m d` (month argument `m` may be 0..12 as the client
passes it; `m = 12` normalizes to January of the next year), as used by
`new Date(y, m, d)`.  Result is the day number of the constructed date.
Only invoked with arguments that keep the result non-negative. -/
def jsMakeDay (y m d : Nat) : Nat :=
  let ym := y + m / 12
  let mn := m % 12
  dayFromYear ym + monthStart mn (inLeapYear ym) + d - 1

/-- ECMA-262 `DateFromTime`: the day-of-month (1-based) of day number `D`. -/
def jsDateFromDay (D : Nat) : Nat :=
  let yr := yearFromDay D
  let dwy := D - dayFromYear yr
  dwy - monthStart (monthFromDay dwy (inLeapYear yr)) (inLeapYear yr) + 1

/-- ECMA-262 `WeekDay`: `getDay()` of day number `D` (0 = Sunday). -/
def jsGetDay (D : Nat) : Nat := (D + 4) % 7

/-- Embedding of `new Date(currentYear, currentMonth, 0).getDate()` from
`renderCalendar` (line 68): the number of days in month `m` (1..12) of
year `y`. -/
def jsDaysInMonth (y m : Nat) : Nat := jsDateFromDay (jsMakeDay y m 0)

/-- Embedding of `new Date(currentYear, currentMonth - 1, 1).getDay()` from
`renderCalendar` (line 69): the weekday of the first of the month. -/
def firstDayOfMonth (y m : Nat) : Nat := jsGetDay (jsMakeDay y (m - 1) 1)

/-- Modelled from the spec ("the correct day count for that Gregorian
month"): the Gregorian leap-year rule, stated independently of the code. -/
def gregorianLeap (y : Nat) : Bool :=
  (y % 4 == 0 && y % 100 != 0) || y % 400 == 0

/-- Modelled from the spec: the Gregorian day count of month `m` of year
`y`, from the standard month-length table. -/
def gregorianMonthLength (y m : Nat) : Nat :=
  match m with
  | 2 => if gregorianLeap y then 29 else 28
  | 4 => 30 | 6 => 30 | 9 => 30 | 11 => 30
  | _ => 31

/-! Calendar rendering (`renderCalendar`, lines 64-97) -/

/-- A cell appended to `#calendar` by `renderCalendar`: a weekday header, a
leading `other-month` blank, or a day cell carrying the `holiday` and
`selected` classes as applicable (every day cell also has `available`). -/
inductive CalCell where
  | header (label : String)
  | blank
  | day (n : Nat) (holiday selected : Bool)
deriving DecidableEq, Repr

/-- The weekday header labels of `renderCalendar` (line 70). -/
def dayHeaders : List String := ["日", "一", "二", "三", "四", "五", "六"]

/-- Embedding of `renderCalendar` (lines 64-97): headers, then
`firstDayOfMonth` blanks, then one day cell per day `1..daysInMonth`,
tagged with `holiday` / `selected` membership. -/
def renderCalendar (y m : Nat) (selectedDays holidays : List Nat) : List CalCell :=
  (dayHeaders.map CalCell.header)
    ++ List.replicate (firstDayOfMonth y m) CalCell.blank
    ++ (List.range (jsDaysInMonth y m)).map
        (fun i => CalCell.day (i + 1) (holidays.contains (i + 1)) (selectedDays.contains (i + 1)))

/-- Whether a rendered cell is a day cell (has the `available` class). -/
def isDayCell : CalCell → Bool
  | .day _ _ _ => true
  | _ => false

/-- Number of day cells in a rendered calendar. -/
def countDayCells (l : List CalCell) : Nat := l.countP isDayCell

/-! Drag-selection state (`addDragListeners`, lines 99-137)

The listeners operate on the `.available` cells of the rendered calendar,
i.e. exactly the day cells; every day cell carries `available`, holidays
included (line 87).  A cell's mutable classes during a gesture are
`selected` and `selecting`; the module-level flags are `isDragging`,
`dragStartDay` (we encode the `null` it is reset to as `0`, which is what
JavaScript coerces `null` to in the arithmetic paths) and
`dragToggleState`. -/

/-- One `.available` day cell of the rendered calendar, with its `holiday`
badge and its mutable `selected` / `selecting` classes. -/
structure DayCellState where
  day : Nat
  holiday : Bool
  selected : Bool
  selecting : Bool
deriving DecidableEq, Repr

/-- The drag-interaction state of the doctor page: the `.available` cells
plus the module-level flags of `initDoctorPage` (line 23). -/
structure CalendarState where
  cells : List DayCellState
  isDragging : Bool
  dragStartDay : Nat
  dragToggleState : Bool
deriving DecidableEq, Repr

/-- The drag-interaction state right after `renderCalendar` ran: the day
cells of the rendered calendar (nothing is `selecting`), with the drag
flags at their initial values. -/
def stateOfRender (y m : Nat) (selectedDays holidays : List Nat) : CalendarState :=
  { cells := (renderCalendar y m selectedDays holidays).filterMap
      (fun c => match c with
        | .day n h s => some { day := n, holiday := h, selected := s, selecting := false }
        | _ => none)
    isDragging := false
    dragStartDay := 0
    dragToggleState := false }

/-- Embedding of the `mousedown` listener (lines 100-108): if the target is
an `available` cell, start dragging from it, set the toggle value to the
negation of its `selected` class, and apply the toggle to it at once. -/
def mousedown (d : Nat) (s : CalendarState) : CalendarState :=
  match s.cells.find? (fun c => c.day == d) with
  | none => s
  | some c =>
    let toggle := !c.selected
    { s with isDragging := true,
             dragStartDay := d,
             dragToggleState := toggle,
             cells := s.cells.map (fun c2 =>
               if c2.day == d then { c2 with selected := toggle } else c2) }

/-- Embedding of the `mouseover` listener (lines 110-125): while dragging,
entering an `available` cell recomputes the inclusive range between the
anchor and the current day and rewrites the `selecting` class of every
`available` cell accordingly. -/
def mouseover (d : Nat) (s : CalendarState) : CalendarState :=
  if s.isDragging ∧ (s.cells.find? (fun c => c.day == d)).isSome then
    let start := min s.dragStartDay d
    let stop := max s.dragStartDay d
    { s with cells := s.cells.map (fun c =>
        if start ≤ c.day ∧ c.day ≤ stop
        then { c with selecting := true }
        else { c with selecting := false }) }
  else s

/-- Embedding of the document-level `mouseup` listener (lines 127-136): if
dragging, commit the toggle value to every `selecting` cell, clear the
`selecting` marks and reset the drag flags. -/
def mouseup (s : CalendarState) : CalendarState :=
  if s.isDragging then
    { s with isDragging := false,
             dragStartDay := 0,
             cells := s.cells.map (fun c =>
               if c.selecting
               then { c with selected := s.dragToggleState, selecting := false }
               else c) }
  else s

/-- A single click: `mousedown` on a cell followed by `mouseup`, with no
intervening `mouseover`. -/
def click (d : Nat) (s : CalendarState) : CalendarState := mouseup (mousedown d s)

/-- A full drag gesture: `mousedown` on the anchor, a sequence of
`mouseover`s along the entered cells, then `mouseup`. -/
def dragPath (a : Nat) (p : List Nat) (s : CalendarState) : CalendarState :=
  mouseup (p.foldl (fun st d => mouseover d st) (mousedown a s))

/-- The `selected` state of the day-`d` cell (false when absent). -/
def selOf (s : CalendarState) (d : Nat) : Bool :=
  ((s.cells.find? (fun c => c.day == d)).map (fun c => c.selected)).getD false

/-- The `holiday` badge of the day-`d` cell (false when absent). -/
def holOf (s : CalendarState) (d : Nat) : Bool :=
  ((s.cells.find? (fun c => c.day == d)).map (fun c => c.holiday)).getD false

/-- The persistent content of a cell: everything except the transient
`selecting` preview mark. -/
def cellCore (c : DayCellState) : Nat × Bool × Bool := (c.day, c.holiday, c.selected)

/-- Two drag states that agree on everything except `selecting` marks. -/
def DragEquiv (s t : CalendarState) : Prop :=
  s.cells.map cellCore = t.cells.map cellCore ∧
  s.isDragging = t.isDragging ∧
  s.dragStartDay = t.dragStartDay ∧
  s.dragToggleState = t.dragToggleState

theorem dragEquiv_refl (s : CalendarState) : DragEquiv s s := ⟨rfl, rfl, rfl, rfl⟩

theorem dragEquiv_trans {s t u : CalendarState} (h1 : DragEquiv s t)
    (h2 : DragEquiv t u) : DragEquiv s u :=
  ⟨h1.1.trans h2.1, h1.2.1.trans h2.2.1, h1.2.2.1.trans h2.2.2.1, h1.2.2.2.trans h2.2.2.2⟩

theorem find?_day_map (l : List DayCellState) (f : DayCellState → DayCellState)
    (hf : ∀ c, (f c).day = c.day) (d : Nat) :
    (l.map f).find? (fun c => c.day == d) = (l.find? (fun c => c.day == d)).map f := by
  induction l with
  | nil => simp
  | cons c l ih =>
    simp only [List.map_cons, List.find?_cons]
    by_cases h : (c.day == d) = true
    · have hfc : ((f c).day == d) = true := by rw [hf]; exact h
      rw [h, hfc]
      rfl
    · have hfc : ((f c).day == d) = false := by rw [hf]; simpa using h
      rw [eq_false_of_ne_true h, hfc]
      exact ih

theorem find?_day_isSome_iff (l : List DayCellState) (d : Nat) :
    (l.find? (fun c => c.day == d)).isSome ↔ d ∈ l.map (fun c => c.day) := by
  rw [List.find?_isSome]
  constructor
  · rintro ⟨c, hc, hd⟩
    exact List.mem_map.mpr ⟨c, hc, by simpa using hd⟩
  · intro h
    rcases List.mem_map.mp h with ⟨c, hc, hd⟩
    exact ⟨c, hc, by simp [hd]⟩

theorem days_eq_of_dragEquiv {s t : CalendarState} (h : DragEquiv s t) :
    s.cells.map (fun c => c.day) = t.cells.map (fun c => c.day) := by
  have h1 := congrArg (List.map Prod.fst) h.1
  simpa [List.map_map, cellCore, Function.comp] using h1

theorem mouseover_dragEquiv (d : Nat) (s : CalendarState) :
    DragEquiv (mouseover d s) s := by
  unfold mouseover
  split
  · refine ⟨?_, rfl, rfl, rfl⟩
    simp only [List.map_map]
    apply List.map_congr_left
    intro c _
    show cellCore (if min s.dragStartDay d ≤ c.day ∧ c.day ≤ max s.dragStartDay d
      then { c with selecting := true } else { c with selecting := false }) = cellCore c
    by_cases h : min s.dragStartDay d ≤ c.day ∧ c.day ≤ max s.dragStartDay d
    · rw [if_pos h]
      rfl
    · rw [if_neg h]
      rfl
  · exact dragEquiv_refl _

theorem foldl_mouseover_dragEquiv (p : List Nat) (s : CalendarState) :
    DragEquiv (p.foldl (fun st d => mouseover d st) s) s := by
  induction p generalizing s with
  | nil => exact dragEquiv_refl s
  | cons d p ih =>
    simpa using dragEquiv_trans (ih (mouseover d s)) (mouseover_dragEquiv d s)

theorem map_selecting_of_core_eq {l1 l2 : List DayCellState} (lo hi : Nat)
    (h : l1.map cellCore = l2.map cellCore) :
    l1.map (fun c => if lo ≤ c.day ∧ c.day ≤ hi
        then { c with selecting := true } else { c with selecting := false }) =
    l2.map (fun c => if lo ≤ c.day ∧ c.day ≤ hi
        then { c with selecting := true } else { c with selecting := false }) := by
  induction l1 generalizing l2 with
  | nil =>
    cases l2 with
    | nil => rfl
    | cons c2 l2 => simp at h
  | cons c1 l1 ih =>
    cases l2 with
    | nil => simp at h
    | cons c2 l2 =>
      simp only [List.map_cons, List.cons.injEq] at h ⊢
      obtain ⟨h1, h2⟩ := h
      obtain ⟨d1, ho1, se1, sg1⟩ := c1
      obtain ⟨d2, ho2, se2, sg2⟩ := c2
      simp only [cellCore, Prod.mk.injEq] at h1
      obtain ⟨hd, hh, hs⟩ := h1
      subst hd; subst hh; subst hs
      exact ⟨rfl, ih h2⟩

theorem mouseover_congr (d : Nat) {s t : CalendarState} (h : DragEquiv s t)
    (ht : t.isDragging = true)
    (hd : (t.cells.find? (fun c => c.day == d)).isSome) :
    mouseover d s = mouseover d t := by
  have hdays := days_eq_of_dragEquiv h
  have hs : (s.cells.find? (fun c => c.day == d)).isSome := by
    rw [find?_day_isSome_iff, hdays, ← find?_day_isSome_iff]
    exact hd
  have hsd : s.isDragging = true := h.2.1.trans ht
  unfold mouseover
  rw [if_pos ⟨hsd, hs⟩, if_pos ⟨ht, hd⟩]
  have hcells := map_selecting_of_core_eq (min t.dragStartDay d) (max t.dragStartDay d) h.1
  rw [CalendarState.mk.injEq]
  refine ⟨?_, h.2.1, h.2.2.1, h.2.2.2⟩
  rw [h.2.2.1]
  exact hcells

theorem mousedown_eq (a : Nat) (s : CalendarState) (ca : DayCellState)
    (ha : s.cells.find? (fun c => c.day == a) = some ca) :
    mousedown a s =
      { cells := s.cells.map (fun c2 =>
          if c2.day == a then { c2 with selected := !ca.selected } else c2),
        isDragging := true, dragStartDay := a, dragToggleState := !ca.selected } := by
  unfold mousedown
  rw [ha]

theorem mousedown_day_preserved (a : Nat) (t : Bool) (c : DayCellState) :
    ((fun c2 => if c2.day == a then { c2 with selected := t } else c2) c).day = c.day := by
  by_cases h : (c.day == a) = true <;> simp [h]

theorem dragPath_concat (a b : Nat) (q : List Nat) (s : CalendarState) (ca : DayCellState)
    (ha : s.cells.find? (fun c => c.day == a) = some ca)
    (hb : (s.cells.find? (fun c => c.day == b)).isSome) :
    dragPath a (q ++ [b]) s = mouseup (mouseover b (mousedown a s)) := by
  unfold dragPath
  rw [List.foldl_append]
  simp only [List.foldl_cons, List.foldl_nil]
  congr 1
  apply mouseover_congr b (foldl_mouseover_dragEquiv q (mousedown a s))
  · rw [mousedown_eq a s ca ha]
  · rw [mousedown_eq a s ca ha]
    show ((s.cells.map fun c2 =>
      if c2.day == a then { c2 with selected := !ca.selected } else c2).find?
        (fun c => c.day == b)).isSome = true
    rw [find?_day_map _ _ (mousedown_day_preserved a !ca.selected) b]
    simpa using hb

theorem drag_commit (a b : Nat) (s : CalendarState) (ca : DayCellState)
    (ha : s.cells.find? (fun c => c.day == a) = some ca)
    (hb : (s.cells.find? (fun c => c.day == b)).isSome) :
    mouseup (mouseover b (mousedown a s)) =
      { cells := s.cells.map (fun c =>
          if min a b ≤ c.day ∧ c.day ≤ max a b
          then { c with selected := !ca.selected, selecting := false }
          else { c with selecting := false }),
        isDragging := false, dragStartDay := 0, dragToggleState := !ca.selected } := by
  rw [mousedown_eq a s ca ha]
  have hb1 : ((s.cells.map fun c2 =>
      if c2.day == a then { c2 with selected := !ca.selected } else c2).find?
        (fun c => c.day == b)).isSome = true := by
    rw [find?_day_map _ _ (mousedown_day_preserved a !ca.selected) b]
    simpa using hb
  unfold mouseover
  rw [if_pos ⟨rfl, hb1⟩]
  unfold mouseup
  rw [if_pos rfl]
  rw [CalendarState.mk.injEq]
  refine ⟨?_, rfl, rfl, rfl⟩
  simp only [List.map_map]
  apply List.map_congr_left
  intro c _
  obtain ⟨cd, chl, cs, cg⟩ := c
  show (if _ then _ else _ : DayCellState) = _
  by_cases hca : ((⟨cd, chl, cs, cg⟩ : DayCellState).day == a) = true
  · have hcd : cd = a := by simpa using hca
    subst hcd
    have hr : min cd b ≤ cd ∧ cd ≤ max cd b := ⟨min_le_left cd b, le_max_left cd b⟩
    simp only [Function.comp, if_pos hca, if_pos hr]
    rfl
  · simp only [Function.comp, if_neg hca]
    by_cases hr : min a b ≤ cd ∧ cd ≤ max a b
    · simp only [if_pos hr]
      rfl
    · simp only [if_neg hr]
      rfl

theorem commit_day_preserved (a b : Nat) (t : Bool) (c : DayCellState) :
    ((fun (c : DayCellState) => if min a b ≤ c.day ∧ c.day ≤ max a b
        then { c with selected := t, selecting := false }
        else { c with selecting := false }) c).day = c.day := by
  by_cases h : min a b ≤ c.day ∧ c.day ≤ max a b
  · simp only [if_pos h]
  · simp only [if_neg h]

theorem selOf_eq {S : CalendarState} {d : Nat} {x : DayCellState}
    (h : S.cells.find? (fun c => c.day == d) = some x) : selOf S d = x.selected := by
  simp [selOf, h]

theorem holOf_eq {S : CalendarState} {d : Nat} {x : DayCellState}
    (h : S.cells.find? (fun c => c.day == d) = some x) : holOf S d = x.holiday := by
  simp [holOf, h]

/-- C1: the claim says committing a drag whose inclusive range numerically
contains a holiday day leaves the holiday day's selection state unchanged.
The code gives every in-month day cell the `available` class, holidays
included, and the `mouseup` commit flips every `available` cell marked by
the range sweep — so the holiday day flips too.  Amended: committing a
drag over a range that contains a holiday day sets the holiday day's
selection state to the drag toggle value exactly like any other in-month
day; only days outside the swept range keep their selection state. -/
theorem C1_holiday_in_range_flips (s : CalendarState) (a b d : Nat)
    (ca cd : DayCellState)
    (ha : s.cells.find? (fun c => c.day == a) = some ca)
    (hb : (s.cells.find? (fun c => c.day == b)).isSome)
    (hd : s.cells.find? (fun c => c.day == d) = some cd)
    (hhol : cd.holiday = true)
    (hlo : min a b ≤ d) (hhi : d ≤ max a b) :
    selOf (dragPath a [b] s) d = !ca.selected ∧
    holOf (dragPath a [b] s) d = true ∧
    (∀ e ce, s.cells.find? (fun c => c.day == e) = some ce →
      ¬(min a b ≤ e ∧ e ≤ max a b) → selOf (dragPath a [b] s) e = ce.selected) := by
  have hpath : dragPath a [b] s = mouseup (mouseover b (mousedown a s)) :=
    dragPath_concat a b [] s ca ha hb
  have hcd : cd.day = d := by simpa using List.find?_some hd
  rw [hpath, drag_commit a b s ca ha hb]
  have hfd := find?_day_map s.cells _ (commit_day_preserved a b !ca.selected) d
  rw [hd, Option.map_some'] at hfd
  simp only [hcd, if_pos (And.intro hlo hhi)] at hfd
  refine ⟨?_, ?_, ?_⟩
  · rw [selOf_eq hfd]
  · rw [holOf_eq hfd, hhol]
  · intro e ce he hrange
    have hfe := find?_day_map s.cells _ (commit_day_preserved a b !ca.selected) e
    have hce : ce.day = e := by simpa using List.find?_some he
    rw [he, Option.map_some'] at hfe
    simp only [hce, if_neg hrange] at hfe
    rw [selOf_eq hfe]

/-- C1 as stated is false: rendered January 2025 with day 5 a holiday and
nothing selected; dragging from day 4 to day 6 sweeps the holiday day 5 and
committing the gesture flips its selection state from false to true. -/
theorem C1_counterexample :
    holOf (stateOfRender 2025 1 [] [5]) 5 = true ∧
    selOf (stateOfRender 2025 1 [] [5]) 5 = false ∧
    selOf (dragPath 4 [6] (stateOfRender 2025 1 [] [5])) 5 = true := by
  decide

theorem C1_witness :
    ((stateOfRender 2025 1 [] [5]).cells.find? (fun c => c.day == 4) =
        some ⟨4, false, false, false⟩) ∧
    ((stateOfRender 2025 1 [] [5]).cells.find? (fun c => c.day == 6)).isSome = true ∧
    ((stateOfRender 2025 1 [] [5]).cells.find? (fun c => c.day == 5) =
        some ⟨5, true, false, false⟩) ∧
    selOf (dragPath 4 [6] (stateOfRender 2025 1 [] [5])) 5 =
      !(⟨4, false, false, false⟩ : DayCellState).selected :=
  ⟨by decide, by decide, by decide,
    (C1_holiday_in_range_flips (stateOfRender 2025 1 [] [5]) 4 6 5
      ⟨4, false, false, false⟩ ⟨5, true, false, false⟩ (by decide) (by decide)
      (by decide) (by decide) (by decide) (by decide)).1⟩

theorem eq_of_find?_nodup (l : List DayCellState) (d : Nat) :
    ∀ cd : DayCellState, (l.map (fun c => c.day)).Nodup →
      l.find? (fun c => c.day == d) = some cd → ∀ c ∈ l, c.day = d → c = cd := by
  induction l with
  | nil =>
    intro cd _ _ c hc
    cases hc
  | cons a l ih =>
    intro cd hnd hd c hc hcday
    rw [List.map_cons, List.nodup_cons] at hnd
    simp only [List.find?_cons] at hd
    by_cases had : (a.day == d) = true
    · rw [had] at hd
      injection hd with hd
      subst hd
      rcases List.mem_cons.mp hc with rfl | hcl
      · rfl
      · exfalso
        apply hnd.1
        have hmem : c.day ∈ l.map (fun c => c.day) := List.mem_map.mpr ⟨c, hcl, rfl⟩
        have had2 : a.day = d := by simpa using had
        rw [had2, ← hcday]
        exact hmem
    · rw [eq_false_of_ne_true had] at hd
      rcases List.mem_cons.mp hc with rfl | hcl
      · exact absurd (show (c.day == d) = true by simpa using hcday) had
      · exact ih cd hnd.2 hd c hcl hcday

theorem click_commit (d : Nat) (s : CalendarState) (cd : DayCellState)
    (hd : s.cells.find? (fun c => c.day == d) = some cd)
    (hselg : ∀ c ∈ s.cells, c.selecting = false) :
    click d s =
      { cells := s.cells.map (fun c =>
          if c.day == d then { c with selected := !cd.selected } else c),
        isDragging := false, dragStartDay := 0, dragToggleState := !cd.selected } := by
  unfold click
  rw [mousedown_eq d s cd hd]
  unfold mouseup
  rw [if_pos rfl]
  rw [CalendarState.mk.injEq]
  refine ⟨?_, rfl, rfl, rfl⟩
  simp only [List.map_map]
  apply List.map_congr_left
  intro c hc
  have hsg : c.selecting = false := hselg c hc
  by_cases h : (c.day == d) = true
  · simp only [Function.comp, if_pos h]
    rw [if_neg]
    simp [hsg]
  · simp only [Function.comp, if_neg h]
    rw [if_neg]
    simp [hsg]

/-- C3 (confirmed): a single click (`mousedown` then `mouseup` with no
intervening `mouseover`) on an `available` day cell toggles the selection
state of exactly that day and leaves every other cell untouched, and a
second identical click restores the cells exactly. -/
theorem C3_click_toggles_single_day (s : CalendarState) (d : Nat) (cd : DayCellState)
    (hd : s.cells.find? (fun c => c.day == d) = some cd)
    (hnd : (s.cells.map (fun c => c.day)).Nodup)
    (hselg : ∀ c ∈ s.cells, c.selecting = false) :
    (click d s).cells = s.cells.map (fun c =>
        if c.day == d then { c with selected := !cd.selected } else c) ∧
    (click d (click d s)).cells = s.cells := by
  have h1 := click_commit d s cd hd hselg
  have h1c : (click d s).cells = s.cells.map (fun c =>
      if c.day == d then { c with selected := !cd.selected } else c) := by rw [h1]
  refine ⟨h1c, ?_⟩
  have hf := mousedown_day_preserved d !cd.selected
  have hcdd : (cd.day == d) = true := by
    have h0 := List.find?_some hd
    simpa using h0
  have hfind2 : (click d s).cells.find? (fun c => c.day == d) =
      some { cd with selected := !cd.selected } := by
    rw [h1c, find?_day_map _ _ hf d, hd, Option.map_some']
    simp [hcdd]
  have hselg2 : ∀ c ∈ (click d s).cells, c.selecting = false := by
    rw [h1c]
    intro c hc
    rcases List.mem_map.mp hc with ⟨c0, hc0, rfl⟩
    by_cases h : (c0.day == d) = true
    · simp only [if_pos h]
      exact hselg c0 hc0
    · simp only [if_neg h]
      exact hselg c0 hc0
  have h2 := click_commit d (click d s) { cd with selected := !cd.selected } hfind2 hselg2
  have h2c : (click d (click d s)).cells = (click d s).cells.map (fun c =>
      if c.day == d then { c with selected := !(!cd.selected) } else c) := by rw [h2]
  rw [h2c, h1c, List.map_map]
  have hpt : ∀ c ∈ s.cells,
      ((fun c => if c.day == d then { c with selected := !(!cd.selected) } else c) ∘
        (fun (c : DayCellState) =>
          if c.day == d then { c with selected := !cd.selected } else c)) c = c := by
    intro c hc
    by_cases h : (c.day == d) = true
    · have hccd : c = cd :=
        eq_of_find?_nodup s.cells d cd hnd hd c hc (by simpa using h)
      simp only [Function.comp, if_pos h, if_pos h, Bool.not_not]
      rw [← hccd]
    · simp only [Function.comp, if_neg h, if_neg h]
  rw [List.map_congr_left hpt]
  exact List.map_id' s.cells

theorem C3_witness :
    ((stateOfRender 2025 1 [] []).cells.find? (fun c => c.day == 3) =
        some ⟨3, false, false, false⟩) ∧
    ((stateOfRender 2025 1 [] []).cells.map (fun c => c.day)).Nodup ∧
    (∀ c ∈ (stateOfRender 2025 1 [] []).cells, c.selecting = false) ∧
    (click 3 (click 3 (stateOfRender 2025 1 [] []))).cells =
      (stateOfRender 2025 1 [] []).cells :=
  ⟨by decide, by decide, by decide,
    (C3_click_toggles_single_day (stateOfRender 2025 1 [] []) 3
      ⟨3, false, false, false⟩ (by decide) (by decide) (by decide)).2⟩

/-- C2: the claim quantifies over every calendar state in which day 5 is
unselected and asserts that repeating the drag 5→10 restores the original
state.  That fails when some other day in 6..10 starts out selected (the
second drag deselects it as well), so the hypothesis must cover the whole
range.  Amended: in any calendar state where the days 5 through 10 are all
unselected (and nothing is mid-preview), dragging from day 5 through day
10 selects exactly the in-month days in {5,...,10} and changes no other
day, and repeating the identical drag restores the cells exactly. -/
theorem C2_drag_5_to_10 (s : CalendarState)
    (h5 : (s.cells.find? (fun c => c.day == 5)).isSome)
    (h10 : (s.cells.find? (fun c => c.day == 10)).isSome)
    (hsel : ∀ c ∈ s.cells, 5 ≤ c.day → c.day ≤ 10 → c.selected = false)
    (hselg : ∀ c ∈ s.cells, c.selecting = false) :
    (dragPath 5 [6, 7, 8, 9, 10] s).cells = s.cells.map (fun c =>
        if 5 ≤ c.day ∧ c.day ≤ 10
        then { c with selected := true, selecting := false }
        else { c with selecting := false }) ∧
    (dragPath 5 [6, 7, 8, 9, 10] (dragPath 5 [6, 7, 8, 9, 10] s)).cells = s.cells := by
  rcases Option.isSome_iff_exists.mp h5 with ⟨c5, hc5⟩
  have hc5m : c5 ∈ s.cells := List.mem_of_find?_eq_some hc5
  have hc5day : c5.day = 5 := by simpa using List.find?_some hc5
  have hc5sel : c5.selected = false := hsel c5 hc5m (by rw [hc5day]) (by rw [hc5day]; decide)
  have hlist : ([6, 7, 8, 9, 10] : List Nat) = [6, 7, 8, 9] ++ [10] := rfl
  have hmin : min 5 10 = 5 := by decide
  have hmax : max 5 10 = 10 := by decide
  have hfull : dragPath 5 [6, 7, 8, 9, 10] s =
      { cells := s.cells.map (fun c =>
          if 5 ≤ c.day ∧ c.day ≤ 10
          then { c with selected := true, selecting := false }
          else { c with selecting := false }),
        isDragging := false, dragStartDay := 0, dragToggleState := true } := by
    rw [hlist, dragPath_concat 5 10 [6, 7, 8, 9] s c5 hc5 h10,
      drag_commit 5 10 s c5 hc5 h10]
    simp only [hmin, hmax, hc5sel, Bool.not_false]
  have hfullc : (dragPath 5 [6, 7, 8, 9, 10] s).cells = s.cells.map (fun c =>
      if 5 ≤ c.day ∧ c.day ≤ 10
      then { c with selected := true, selecting := false }
      else { c with selecting := false }) := by rw [hfull]
  refine ⟨hfullc, ?_⟩
  have hFday : ∀ c : DayCellState,
      ((fun (c : DayCellState) => if 5 ≤ c.day ∧ c.day ≤ 10
        then { c with selected := true, selecting := false }
        else { c with selecting := false }) c).day = c.day := by
    intro c
    by_cases h : 5 ≤ c.day ∧ c.day ≤ 10
    · simp only [if_pos h]
    · simp only [if_neg h]
  have hr5 : (5 : Nat) ≤ 5 ∧ (5 : Nat) ≤ 10 := by decide
  have hfind5 : (dragPath 5 [6, 7, 8, 9, 10] s).cells.find? (fun c => c.day == 5) =
      some { c5 with selected := true, selecting := false } := by
    rw [hfullc, find?_day_map _ _ hFday 5, hc5, Option.map_some']
    simp only [hc5day, if_pos hr5]
  have hfind10 : ((dragPath 5 [6, 7, 8, 9, 10] s).cells.find?
      (fun c => c.day == 10)).isSome := by
    rw [hfullc, find?_day_map _ _ hFday 10]
    simpa using h10
  have heq := dragPath_concat 5 10 [6, 7, 8, 9] (dragPath 5 [6, 7, 8, 9, 10] s) _
    hfind5 hfind10
  rw [← hlist] at heq
  have hcommit := drag_commit 5 10 (dragPath 5 [6, 7, 8, 9, 10] s) _ hfind5 hfind10
  rw [heq, hcommit, hfullc]
  show ((s.cells.map _).map _) = s.cells
  rw [List.map_map]
  have hpt : ∀ c ∈ s.cells,
      ((fun c => if min 5 10 ≤ c.day ∧ c.day ≤ max 5 10
          then { c with
            selected := !({ c5 with selected := true, selecting := false } : DayCellState).selected,
            selecting := false }
          else { c with selecting := false }) ∘
        (fun (c : DayCellState) => if 5 ≤ c.day ∧ c.day ≤ 10
          then { c with selected := true, selecting := false }
          else { c with selecting := false })) c = c := by
    intro c hc
    have hcg : c.selecting = false := hselg c hc
    by_cases h : 5 ≤ c.day ∧ c.day ≤ 10
    · have hcsel : c.selected = false := hsel c hc h.1 h.2
      simp only [Function.comp, if_pos h, hmin, hmax, Bool.not_true]
      cases c
      rw [DayCellState.mk.injEq]
      exact ⟨rfl, rfl, hcsel.symm, hcg.symm⟩
    · simp only [Function.comp, if_neg h, hmin, hmax]
      cases c
      rw [DayCellState.mk.injEq]
      exact ⟨rfl, rfl, rfl, hcg.symm⟩
  rw [List.map_congr_left hpt]
  exact List.map_id' s.cells

/-- C2 as stated is false on its round-trip part: in rendered January 2025
with day 8 selected and day 5 unselected, performing the drag 5→10 twice
leaves day 8 unselected, so the original state is not restored. -/
theorem C2_counterexample :
    selOf (stateOfRender 2025 1 [8] []) 5 = false ∧
    selOf (stateOfRender 2025 1 [8] []) 8 = true ∧
    selOf (dragPath 5 [6, 7, 8, 9, 10]
      (dragPath 5 [6, 7, 8, 9, 10] (stateOfRender 2025 1 [8] []))) 8 = false := by
  decide

theorem C2_witness :
    ((stateOfRender 2025 1 [] []).cells.find? (fun c => c.day == 5)).isSome = true ∧
    ((stateOfRender 2025 1 [] []).cells.find? (fun c => c.day == 10)).isSome = true ∧
    (∀ c ∈ (stateOfRender 2025 1 [] []).cells, 5 ≤ c.day → c.day ≤ 10 → c.selected = false) ∧
    (∀ c ∈ (stateOfRender 2025 1 [] []).cells, c.selecting = false) ∧
    (dragPath 5 [6, 7, 8, 9, 10]
      (dragPath 5 [6, 7, 8, 9, 10] (stateOfRender 2025 1 [] []))).cells =
      (stateOfRender 2025 1 [] []).cells :=
  ⟨by decide, by decide, by decide, by decide,
    (C2_drag_5_to_10 (stateOfRender 2025 1 [] []) (by decide) (by decide)
      (by decide) (by decide)).2⟩

theorem countDayCells_renderCalendar (y m : Nat) (sel hol : List Nat) :
    countDayCells (renderCalendar y m sel hol) = jsDaysInMonth y m := by
  unfold countDayCells renderCalendar
  rw [List.countP_append, List.countP_append]
  have h1 : (dayHeaders.map CalCell.header).countP isDayCell = 0 := by decide
  have h2 : (List.replicate (firstDayOfMonth y m) CalCell.blank).countP isDayCell = 0 := by
    rw [List.countP_eq_zero]
    intro a ha
    rw [List.eq_of_mem_replicate ha]
    decide
  have h3 : ((List.range (jsDaysInMonth y m)).map (fun i =>
      CalCell.day (i + 1) (hol.contains (i + 1)) (sel.contains (i + 1)))).countP
        isDayCell = jsDaysInMonth y m := by
    have hall : ∀ a ∈ (List.range (jsDaysInMonth y m)).map (fun i =>
        CalCell.day (i + 1) (hol.contains (i + 1)) (sel.contains (i + 1))),
        isDayCell a = true := by
      intro a ha
      rcases List.mem_map.mp ha with ⟨i, _, rfl⟩
      rfl
    rw [List.countP_eq_length.mpr hall, List.length_map, List.length_range]
  rw [h1, h2, h3]
  omega

theorem jsDaysInMonth_matches_gregorian : ∀ dy < 4, ∀ m < 13, 1 ≤ m →
    jsDaysInMonth (2025 + dy) m = gregorianMonthLength (2025 + dy) m := by
  decide

/-- C4 (confirmed): for every year in the supported selector range and
every month, `renderCalendar` produces exactly as many day cells as the
Gregorian day count of that month; February has 29 cells in 2028 and 28
in 2025 and 2026. -/
theorem C4_rendered_day_cell_count :
    (∀ y m sel hol, 2025 ≤ y → y ≤ 2026 → 1 ≤ m → m ≤ 12 →
      countDayCells (renderCalendar y m sel hol) = gregorianMonthLength y m) ∧
    (∀ sel hol, countDayCells (renderCalendar 2028 2 sel hol) = 29) ∧
    gregorianMonthLength 2025 2 = 28 ∧ gregorianMonthLength 2026 2 = 28 := by
  refine ⟨?_, ?_, by decide, by decide⟩
  · intro y m sel hol hy1 hy2 hm1 hm2
    rw [countDayCells_renderCalendar]
    have hdy : y = 2025 + (y - 2025) := by omega
    rw [hdy]
    exact jsDaysInMonth_matches_gregorian (y - 2025) (by omega) m (by omega) hm1
  · intro sel hol
    rw [countDayCells_renderCalendar]
    decide

theorem C4_witness :
    ((2025 : Nat) ≤ 2025 ∧ (2025 : Nat) ≤ 2026 ∧ (1 : Nat) ≤ 2 ∧ (2 : Nat) ≤ 12) ∧
    countDayCells (renderCalendar 2025 2 [] []) = gregorianMonthLength 2025 2 :=
  ⟨by decide, C4_rendered_day_cell_count.1 2025 2 [] [] (by decide) (by decide)
    (by decide) (by decide)⟩

/-! Days-off submission (`submitDaysOff`, lines 139-157) -/

/-- Outcome of the submission call: a response whose status is `success`,
a response with any other status and a message, or a thrown network
error. -/
inductive SubmitOutcome where
  | success
  | appFailure (message : String)
  | networkError
deriving DecidableEq, Repr

/-- The submit-button and alert state touched by `submitDaysOff`.  The
`observedDisabledDuringFetch` field records the disabled flag of the
submit button at the moment the fetch call runs. -/
structure SubmitUI where
  submitDisabled : Bool
  alerts : List String
  observedDisabledDuringFetch : Option Bool
deriving DecidableEq, Repr

/-- Embedding of a JavaScript try/catch/finally block over a UI state:
the body either completes or throws, the catch handler runs on a throw,
and the finally handler always runs last. -/
def tryCatchFinally {σ : Type} (body : σ → σ × Option String)
    (catchH : String → σ → σ) (finH : σ → σ) (st : σ) : σ :=
  match body st with
  | (st2, none) => finH st2
  | (st2, some e) => finH (catchH e st2)

/-- Embedding of the `fetch`/`response.json()`/`alert` body of
`submitDaysOff` (lines 144-150): the fetch observes the current disabled
flag; a network error throws; otherwise the response status selects the
success or failure alert. -/
def submitFetchBody (o : SubmitOutcome) (st : SubmitUI) : SubmitUI × Option String :=
  let st := { st with observedDisabledDuringFetch := some st.submitDisabled }
  match o with
  | .networkError => (st, some "fetch failed")
  | .success => ({ st with alerts := st.alerts ++ ["預休日期已成功提交！"] }, none)
  | .appFailure msg => ({ st with alerts := st.alerts ++ ["提交失敗：" ++ msg] }, none)

/-- Embedding of `submitDaysOff` (lines 139-157): disable the submit
button, run the call, alert from the catch handler on a throw, re-enable
the button in the finally block. -/
def submitDaysOff (o : SubmitOutcome) (st : SubmitUI) : SubmitUI :=
  tryCatchFinally (submitFetchBody o)
    (fun _ st => { st with alerts := st.alerts ++ ["提交時發生錯誤。"] })
    (fun st => { st with submitDisabled := false })
    { st with submitDisabled := true }

/-- C7 (confirmed): for every outcome of the days-off submission call the
submit trigger is disabled for the duration of the call and re-enabled
after it completes, via the finally-style cleanup. -/
theorem C7_submit_button_lifecycle (o : SubmitOutcome) (st : SubmitUI) :
    (submitDaysOff o st).submitDisabled = false ∧
    (submitDaysOff o st).observedDisabledDuringFetch = some true := by
  cases o <;> exact ⟨rfl, rfl⟩

/-! Admin submission status (`updateSubmissionStatus`, lines 202-229) -/

/-- One doctor's entry in the fetched submission data. -/
structure SubmissionInfo where
  days_off : List Nat
  submitted : Bool
deriving DecidableEq, Repr

/-- Embedding of `updateSubmissionStatus` (lines 202-229): from the fetched
submissions it computes the `disabled` flag of the run button and the help
text: empty data disables, any unsubmitted doctor disables, otherwise the
run button is enabled. -/
def updateSubmissionStatus (subs : List (String × SubmissionInfo)) : Bool × String :=
  let notSubmitted := subs.filter (fun x => !x.2.submitted)
  if subs.length = 0 then
    (true, "資料錯誤，無法排班。")
  else if notSubmitted.length = 0 then
    (false, "可以開始排班。")
  else
    (true, "尚有 " ++ toString notSubmitted.length ++ " 位醫師未提交。")

/-- C10 (confirmed): after a submission-status refresh the run trigger is
enabled (not disabled) iff the fetched submission data is non-empty and
every doctor in it is marked submitted. -/
theorem C10_run_button_gate (subs : List (String × SubmissionInfo)) :
    (updateSubmissionStatus subs).1 = false ↔
      subs ≠ [] ∧ ∀ x ∈ subs, x.2.submitted = true := by
  unfold updateSubmissionStatus
  rcases subs with _ | ⟨a, l⟩
  · simp
  · rw [if_neg (by simp)]
    by_cases hf : (List.filter (fun x => !x.2.submitted) (a :: l)).length = 0
    · rw [if_pos hf]
      refine iff_of_true rfl ⟨by simp, ?_⟩
      intro x hx
      have hx2 := (List.filter_eq_nil_iff.mp (List.length_eq_zero.mp hf)) x hx
      simpa using hx2
    · rw [if_neg hf]
      refine iff_of_false (by simp) ?_
      rintro ⟨-, hall⟩
      apply hf
      rw [List.length_eq_zero, List.filter_eq_nil_iff]
      intro x hx
      simp [hall x hx]

/-! Run results payload -/

/-- The `schedule_data` payload delivered by the DONE event and consumed by
`renderScheduleTable`: doctor list, per-doctor area, day count, holidays,
per-doctor days off, and the computed schedule (`schedule[doc][day]`).
Dictionary entries that may be absent are `Option`s. -/
structure ResultData where
  doctors : List String
  doctorArea : String → String
  num_days : Nat
  holidays : List Nat
  days_off : String → Option (List Nat)
  schedule : String → Option (Nat → Option String)

/-! Admin run-stream state machine (lines 238-301) -/

/-- An event delivered on the run stream: an incremental log message, the
DONE terminal event with its parsed fields, or a transport error. -/
inductive RunEvent where
  | message (data : String)
  | done (status message : String) (schedule_data : Option ResultData)
  | errorEv

/-- The admin-page state touched by the run-stream handlers.  Stream
objects are identified by creation order; `openStreams` holds the
identifiers of the `EventSource` objects that have not been closed and
`eventSource` the identifier held by the `eventSource` variable. -/
structure AdminState where
  logOutput : String
  isFirstLog : Bool
  runDisabled : Bool
  resultsHidden : Bool
  logMinimized : Bool
  toggleLogHidden : Bool
  fullScheduleData : Option ResultData
  eventSource : Option Nat
  openStreams : List Nat
  nextStream : Nat

/-- Embedding of `eventSource.close()`: the stream object held by the
`eventSource` variable stops being live. -/
def closeEventSource (s : AdminState) : AdminState :=
  match s.eventSource with
  | some sid => { s with openStreams := s.openStreams.erase sid }
  | none => s

/-- Embedding of `resetRunButton` (lines 297-301) on the tracked state:
the run button is re-enabled. -/
def resetRunButton (s : AdminState) : AdminState :=
  { s with runDisabled := false }

/-- Embedding of `runScheduler` (lines 238-268): close any previous
stream, disable the run button, expand the log and reset it to the
placeholder, hide the results, and open a fresh `EventSource`. -/
def runScheduler (s : AdminState) : AdminState :=
  let s1 := closeEventSource s
  { s1 with runDisabled := true,
            logMinimized := false,
            logOutput := "正在連接後端排班引擎...",
            toggleLogHidden := true,
            resultsHidden := true,
            isFirstLog := true,
            eventSource := some s1.nextStream,
            openStreams := s1.openStreams ++ [s1.nextStream],
            nextStream := s1.nextStream + 1 }

/-- Embedding of `handleLogMessage` (lines 271-276): the first received
line replaces the placeholder instead of appending to it; every line is
appended together with a newline. -/
def handleLogMessage (data : String) (s : AdminState) : AdminState :=
  let s1 := if s.isFirstLog then { s with logOutput := "", isFirstLog := false } else s
  { s1 with logOutput := s1.logOutput ++ data ++ "\n" }

/-- Embedding of `handleDoneEvent` (lines 278-295): on success store the
payload, show the results and collapse the log; otherwise append the
failure message to the log.  Either way reset the run button and close
the stream. -/
def handleDoneEvent (status message : String) (payload : Option ResultData)
    (s : AdminState) : AdminState :=
  let s1 :=
    if status = "success" then
      { s with fullScheduleData := payload, resultsHidden := false,
               logMinimized := true, toggleLogHidden := false }
    else
      { s with logOutput := s.logOutput ++ "\n排班失敗: " ++ message }
  closeEventSource (resetRunButton s1)

/-- Embedding of the `onerror` handler (lines 263-267): append the
disconnect message to the log, close the stream, reset the run button. -/
def handleStreamError (s : AdminState) : AdminState :=
  resetRunButton (closeEventSource
    { s with logOutput := s.logOutput ++ "\n與伺服器連線中斷或發生錯誤。" })

/-- Dispatch of a stream event to the registered handlers. -/
def handle : RunEvent → AdminState → AdminState
  | .message d, s => handleLogMessage d s
  | .done st msg p, s => handleDoneEvent st msg p s
  | .errorEv, s => handleStreamError s

/-- Environment semantics of `EventSource`: an event of stream `sid`
reaches the handlers only while that stream object is live — a closed
stream dispatches nothing. -/
def deliver (sid : Nat) (ev : RunEvent) (s : AdminState) : AdminState :=
  if sid ∈ s.openStreams then handle ev s else s

theorem closeEventSource_spec (s : AdminState) :
    (closeEventSource s).logOutput = s.logOutput ∧
    (closeEventSource s).resultsHidden = s.resultsHidden ∧
    (closeEventSource s).fullScheduleData = s.fullScheduleData ∧
    (closeEventSource s).runDisabled = s.runDisabled ∧
    (closeEventSource s).nextStream = s.nextStream ∧
    (closeEventSource s).eventSource = s.eventSource := by
  cases hes : s.eventSource with
  | none =>
    unfold closeEventSource
    rw [hes]
    exact ⟨rfl, rfl, rfl, rfl, rfl, hes⟩
  | some sid =>
    unfold closeEventSource
    rw [hes]
    exact ⟨rfl, rfl, rfl, rfl, rfl, rfl⟩

/-- C5 (confirmed): once a run starts, delivering the log lines "A" then
"B" on the new stream followed by a success terminal event leaves the
accumulated log exactly "A\nB\n" — the first line replaced the initial
placeholder instead of appending to it — stores the payload and makes the
results section visible. -/
theorem C5_success_stream_log (s : AdminState) (p : ResultData) :
    (runScheduler s).logOutput = "正在連接後端排班引擎..." ∧
    (deliver s.nextStream (RunEvent.message "A") (runScheduler s)).logOutput = "A\n" ∧
    (deliver s.nextStream (RunEvent.done "success" "" (some p))
      (deliver s.nextStream (RunEvent.message "B")
        (deliver s.nextStream (RunEvent.message "A") (runScheduler s)))).logOutput
      = "A\nB\n" ∧
    (deliver s.nextStream (RunEvent.done "success" "" (some p))
      (deliver s.nextStream (RunEvent.message "B")
        (deliver s.nextStream (RunEvent.message "A") (runScheduler s)))).resultsHidden
      = false ∧
    (deliver s.nextStream (RunEvent.done "success" "" (some p))
      (deliver s.nextStream (RunEvent.message "B")
        (deliver s.nextStream (RunEvent.message "A") (runScheduler s)))).fullScheduleData
      = some p := by
  have hnext : (closeEventSource s).nextStream = s.nextStream :=
    (closeEventSource_spec s).2.2.2.2.1
  have hmem : s.nextStream ∈ (runScheduler s).openStreams := by
    unfold runScheduler
    simp [hnext]
  have hs2 : deliver s.nextStream (RunEvent.message "A") (runScheduler s) =
      { runScheduler s with logOutput := "A\n", isFirstLog := false } := by
    unfold deliver
    rw [if_pos hmem]
    show handleLogMessage "A" (runScheduler s) = _
    unfold handleLogMessage
    rw [if_pos (show (runScheduler s).isFirstLog = true from rfl)]
    rfl
  have hmem2 : s.nextStream ∈
      ({ runScheduler s with logOutput := "A\n", isFirstLog := false } : AdminState).openStreams :=
    hmem
  have hs3 : deliver s.nextStream (RunEvent.message "B")
      (deliver s.nextStream (RunEvent.message "A") (runScheduler s)) =
      { runScheduler s with logOutput := "A\nB\n", isFirstLog := false } := by
    rw [hs2]
    unfold deliver
    rw [if_pos hmem2]
    show handleLogMessage "B" _ = _
    unfold handleLogMessage
    have hfl : ¬ (({ runScheduler s with
                     logOutput := "A\n",
                     isFirstLog := false } : AdminState).isFirstLog = true) :=
      Bool.false_ne_true
    rw [if_neg hfl]
    rfl
  have hmem3 : s.nextStream ∈
      ({ runScheduler s with logOutput := "A\nB\n", isFirstLog := false } : AdminState).openStreams :=
    hmem
  have hs4 : deliver s.nextStream (RunEvent.done "success" "" (some p))
      (deliver s.nextStream (RunEvent.message "B")
        (deliver s.nextStream (RunEvent.message "A") (runScheduler s))) =
      closeEventSource (resetRunButton
        { runScheduler s with
            logOutput := "A\nB\n", isFirstLog := false,
            fullScheduleData := some p, resultsHidden := false,
            logMinimized := true, toggleLogHidden := false }) := by
    rw [hs3]
    unfold deliver
    rw [if_pos hmem3]
    show handleDoneEvent "success" "" (some p)
        { runScheduler s with logOutput := "A\nB\n", isFirstLog := false } = _
    unfold handleDoneEvent
    rw [if_pos rfl]
  refine ⟨rfl, ?_, ?_, ?_, ?_⟩
  · rw [hs2]
  · rw [hs4, (closeEventSource_spec _).1]
    rfl
  · rw [hs4, (closeEventSource_spec _).2.1]
    rfl
  · rw [hs4, (closeEventSource_spec _).2.2.1]
    rfl

/-- C6 (confirmed): a terminal event whose status is not success appends a
failure line carrying the event message to the log, leaves the results
view exactly as hidden as it was, stores no payload, and re-enables the
run button; a transport-level error or disconnect behaves the same with
the disconnect message. -/
theorem C6_failure_paths (s : AdminState) (st msg : String)
    (p : Option ResultData) (hst : st ≠ "success") :
    (handle (RunEvent.done st msg p) s).logOutput =
        s.logOutput ++ "\n排班失敗: " ++ msg ∧
    (handle (RunEvent.done st msg p) s).resultsHidden = s.resultsHidden ∧
    (handle (RunEvent.done st msg p) s).fullScheduleData = s.fullScheduleData ∧
    (handle (RunEvent.done st msg p) s).runDisabled = false ∧
    (handle RunEvent.errorEv s).logOutput =
        s.logOutput ++ "\n與伺服器連線中斷或發生錯誤。" ∧
    (handle RunEvent.errorEv s).resultsHidden = s.resultsHidden ∧
    (handle RunEvent.errorEv s).fullScheduleData = s.fullScheduleData ∧
    (handle RunEvent.errorEv s).runDisabled = false := by
  have hdone : handle (RunEvent.done st msg p) s =
      closeEventSource (resetRunButton
        { s with logOutput := s.logOutput ++ "\n排班失敗: " ++ msg }) := by
    show handleDoneEvent st msg p s = _
    unfold handleDoneEvent
    rw [if_neg hst]
  have herr : handle RunEvent.errorEv s =
      resetRunButton (closeEventSource
        { s with logOutput := s.logOutput ++ "\n與伺服器連線中斷或發生錯誤。" }) := rfl
  refine ⟨?_, ?_, ?_, ?_, ?_, ?_, ?_, ?_⟩
  · rw [hdone, (closeEventSource_spec _).1]
    rfl
  · rw [hdone, (closeEventSource_spec _).2.1]
    rfl
  · rw [hdone, (closeEventSource_spec _).2.2.1]
    rfl
  · rw [hdone, (closeEventSource_spec _).2.2.2.1]
    rfl
  · rw [herr]
    show (closeEventSource
      { s with logOutput := s.logOutput ++ "\n與伺服器連線中斷或發生錯誤。" }).logOutput = _
    rw [(closeEventSource_spec _).1]
  · rw [herr]
    show (closeEventSource
      { s with logOutput := s.logOutput ++ "\n與伺服器連線中斷或發生錯誤。" }).resultsHidden = _
    rw [(closeEventSource_spec _).2.1]
  · rw [herr]
    show (closeEventSource
      { s with logOutput := s.logOutput ++ "\n與伺服器連線中斷或發生錯誤。" }).fullScheduleData = _
    rw [(closeEventSource_spec _).2.2.1]
  · rw [herr]
    rfl

/-- The initial admin-page state, before any run was triggered. -/
def initAdminState : AdminState :=
  { logOutput := "", isFirstLog := true, runDisabled := false, resultsHidden := true,
    logMinimized := false, toggleLogHidden := false, fullScheduleData := none,
    eventSource := none, openStreams := [], nextStream := 0 }

theorem C6_witness :
    (("failure" : String) ≠ "success") ∧
    (handle (RunEvent.done "failure" "X" none) initAdminState).logOutput =
      initAdminState.logOutput ++ "\n排班失敗: " ++ "X" :=
  ⟨by decide, (C6_failure_paths initAdminState "failure" "X" none (by decide)).1⟩

/-- Well-formedness of the stream bookkeeping on a triple of the
`eventSource` variable, the live stream objects and the next fresh
identifier: only the stream currently held by `eventSource` may be live,
and every issued identifier is below the fresh counter. -/
def StreamWF : Option Nat → List Nat → Nat → Prop
  | none, streams, _ => streams = []
  | some sid, streams, next => (streams = [] ∨ streams = [sid]) ∧ sid < next

/-- Well-formedness of an admin state's stream bookkeeping. -/
def WF (s : AdminState) : Prop :=
  StreamWF s.eventSource s.openStreams s.nextStream

theorem closeEventSource_openStreams (s : AdminState) (h : WF s) :
    (closeEventSource s).openStreams = [] := by
  cases hes : s.eventSource with
  | none =>
    have hrw : closeEventSource s = s := by
      unfold closeEventSource
      rw [hes]
    rw [hrw]
    unfold WF at h
    rw [hes] at h
    exact h
  | some sid =>
    have hrw : closeEventSource s = { s with openStreams := s.openStreams.erase sid } := by
      unfold closeEventSource
      rw [hes]
    rw [hrw]
    show s.openStreams.erase sid = []
    unfold WF at h
    rw [hes] at h
    obtain ⟨hopen, -⟩ := h
    rcases hopen with h0 | h0 <;> rw [h0]
    · rfl
    · simp

theorem WF_closeEventSource (s : AdminState) (h : WF s) : WF (closeEventSource s) := by
  cases hes : s.eventSource with
  | none =>
    have hrw : closeEventSource s = s := by
      unfold closeEventSource
      rw [hes]
    rw [hrw]
    exact h
  | some sid =>
    have hrw : closeEventSource s = { s with openStreams := s.openStreams.erase sid } := by
      unfold closeEventSource
      rw [hes]
    have hempty := closeEventSource_openStreams s h
    rw [hrw] at hempty ⊢
    unfold WF
    show StreamWF s.eventSource (s.openStreams.erase sid) s.nextStream
    rw [hes]
    unfold WF at h
    rw [hes] at h
    exact ⟨Or.inl hempty, h.2⟩

theorem WF_handleLogMessage (s : AdminState) (d : String) (h : WF s) :
    WF (handleLogMessage d s) := by
  unfold handleLogMessage
  by_cases hf : s.isFirstLog = true
  · rw [if_pos hf]
    exact h
  · rw [if_neg hf]
    exact h

theorem WF_handleDoneEvent (s : AdminState) (st msg : String) (p : Option ResultData)
    (h : WF s) : WF (handleDoneEvent st msg p s) := by
  unfold handleDoneEvent
  by_cases hst : st = "success"
  · rw [if_pos hst]
    exact WF_closeEventSource
      (resetRunButton { s with
                        fullScheduleData := p, resultsHidden := false,
                        logMinimized := true, toggleLogHidden := false }) h
  · rw [if_neg hst]
    exact WF_closeEventSource
      (resetRunButton { s with logOutput := s.logOutput ++ "\n排班失敗: " ++ msg }) h

theorem WF_handleStreamError (s : AdminState) (h : WF s) :
    WF (handleStreamError s) := by
  unfold handleStreamError
  exact WF_closeEventSource
    { s with logOutput := s.logOutput ++ "\n與伺服器連線中斷或發生錯誤。" } h

theorem runScheduler_eq (s : AdminState) :
    runScheduler s =
      { s with
        runDisabled := true, logMinimized := false,
        logOutput := "正在連接後端排班引擎...", toggleLogHidden := true,
        resultsHidden := true, isFirstLog := true,
        eventSource := some s.nextStream,
        openStreams := (closeEventSource s).openStreams ++ [s.nextStream],
        nextStream := s.nextStream + 1 } := by
  cases hes : s.eventSource with
  | none =>
    unfold runScheduler closeEventSource
    rw [hes]
  | some sid =>
    unfold runScheduler closeEventSource
    rw [hes]

/-- C8 (confirmed): in any well-formed state, triggering a run gives a
state whose only live stream is the freshly opened one — the previous
stream object is closed before the new one opens, so delivering any event
of the prior stream after the new run starts is a no-op — and every
handler dispatch preserves the single-live-stream invariant. -/
theorem C8_single_live_stream (s : AdminState) (hwf : WF s) :
    (runScheduler s).openStreams = [s.nextStream] ∧
    WF (runScheduler s) ∧
    (∀ sidOld, s.eventSource = some sidOld →
      sidOld ∉ (runScheduler s).openStreams ∧
      ∀ ev, deliver sidOld ev (runScheduler s) = runScheduler s) ∧
    (∀ sid ev, WF (deliver sid ev s)) := by
  have hclosed := closeEventSource_openStreams s hwf
  have hopen : (runScheduler s).openStreams = [s.nextStream] := by
    rw [runScheduler_eq s]
    show (closeEventSource s).openStreams ++ [s.nextStream] = [s.nextStream]
    rw [hclosed]
    rfl
  refine ⟨hopen, ?_, ?_, ?_⟩
  · unfold WF
    rw [runScheduler_eq s]
    show StreamWF (some s.nextStream)
      ((closeEventSource s).openStreams ++ [s.nextStream]) (s.nextStream + 1)
    rw [hclosed]
    exact ⟨Or.inr rfl, Nat.lt_succ_self _⟩
  · intro sidOld hes
    unfold WF at hwf
    rw [hes] at hwf
    have hlt : sidOld < s.nextStream := hwf.2
    have hne : sidOld ∉ (runScheduler s).openStreams := by
      rw [hopen]
      intro hmem
      rcases List.mem_singleton.mp hmem with rfl
      exact absurd hlt (lt_irrefl _)
    refine ⟨hne, fun ev => ?_⟩
    unfold deliver
    rw [if_neg hne]
  · intro sid ev
    unfold deliver
    by_cases hmem : sid ∈ s.openStreams
    · rw [if_pos hmem]
      cases ev with
      | message d => exact WF_handleLogMessage s d hwf
      | done st msg p => exact WF_handleDoneEvent s st msg p hwf
      | errorEv => exact WF_handleStreamError s hwf
    · rw [if_neg hmem]
      exact hwf

theorem C8_witness :
    WF initAdminState ∧ (runScheduler initAdminState).openStreams = [0] :=
  ⟨rfl, (C8_single_live_stream initAdminState rfl).1⟩

/-! Results table rendering (`renderScheduleTable`, lines 339-384) -/

/-- A rendered table cell: its CSS classes and its text content. -/
structure CellView where
  classes : List String
  text : String
deriving DecidableEq, Repr

/-- The holiday/weekend styling of a cell (lines 368-371): the holiday
class when the day is a holiday, else the weekend class on Saturday or
Sunday, else nothing. -/
def holidayWeekendClasses (y m : Nat) (d : ResultData) (day : Nat) : List String :=
  let dayOfWeek := jsGetDay (jsMakeDay y (m - 1) day)
  if d.holidays.contains day then ["cell-holiday"]
  else if dayOfWeek = 0 ∨ dayOfWeek = 6 then ["cell-weekend"]
  else []

/-- The `data.days_off[doc] && data.days_off[doc].includes(day)` test of
line 373: false when the doctor has no entry. -/
def dayOffB (d : ResultData) (doc : String) (day : Nat) : Bool :=
  match d.days_off doc with
  | some l => l.contains day
  | none => false

/-- Embedding of the cell construction of `renderScheduleTable`
(lines 366-380): holiday/weekend styling is applied first; then the
day-off marker, else the assigned-area label when the
`data.schedule[doc][day]` lookup is truthy (present and non-empty), else
blank text. -/
def cellFor (y m : Nat) (d : ResultData) (doc : String) (day : Nat) : CellView :=
  let base := holidayWeekendClasses y m d day
  if dayOffB d doc day then
    { classes := base ++ ["cell-dayoff"], text := "預休" }
  else
    match d.schedule doc with
    | some f =>
      match f day with
      | some area =>
        if area == "" then { classes := base, text := "" }
        else { classes := base ++ ["cell-area-" ++ area], text := area }
      | none => { classes := base, text := "" }
    | none => { classes := base, text := "" }

/-- The day-column bounds selected by the date filter (lines 345-348). -/
def dateRangeBounds (dateRange : String) (numDays : Nat) : Nat × Nat :=
  if dateRange = "1-10" then (1, 10)
  else if dateRange = "11-20" then (11, 20)
  else if dateRange = "21-end" then (21, numDays)
  else (1, numDays)

/-- A rendered schedule table: the day header row and one row of cells per
filtered doctor. -/
structure ScheduleTable where
  headerDays : List Nat
  rows : List (String × List CellView)
deriving DecidableEq, Repr

/-- Embedding of `renderScheduleTable` (lines 339-384): doctors filtered
by area, day columns restricted by the date filter, and one `cellFor`
cell per (doctor, day). -/
def renderScheduleTable (y m : Nat) (d : ResultData) (areaF dateF : String) :
    ScheduleTable :=
  let filteredDoctors := d.doctors.filter
    (fun doc => areaF == "all" || d.doctorArea doc == areaF)
  let bounds := dateRangeBounds dateF d.num_days
  let days := List.range' bounds.1 (bounds.2 + 1 - bounds.1)
  { headerDays := days,
    rows := filteredDoctors.map (fun doc => (doc, days.map (cellFor y m d doc))) }

/-- C9: the claim orders the classification as day-off over
holiday/weekend styling over the area label.  In the code the
holiday/weekend styling classes are applied unconditionally before the
text choice, so a holiday cell with an assigned area shows the area label
and a day-off cell on a holiday keeps the holiday class; only the text
follows a precedence, namely day-off marker over area label over blank.
Amended: the cell text shows exactly one of the day-off marker, the
assigned-area label (when the schedule lookup is truthy and the day is
not a day off) or blank, with day-off taking priority over the area
label; the holiday/weekend styling classes are applied independently of
that choice and may coexist with either marker. -/
theorem C9_cell_classification (y m : Nat) (d : ResultData) (doc : String) (day : Nat) :
    (dayOffB d doc day = true →
      cellFor y m d doc day =
        { classes := holidayWeekendClasses y m d day ++ ["cell-dayoff"],
          text := "預休" }) ∧
    (dayOffB d doc day = false → ∀ f area, d.schedule doc = some f →
      f day = some area → (area == "") = false →
      cellFor y m d doc day =
        { classes := holidayWeekendClasses y m d day ++ ["cell-area-" ++ area],
          text := area }) ∧
    (dayOffB d doc day = false → ∀ f, d.schedule doc = some f →
      f day = none →
      cellFor y m d doc day = { classes := holidayWeekendClasses y m d day, text := "" }) ∧
    (dayOffB d doc day = false → ∀ f, d.schedule doc = some f →
      f day = some "" →
      cellFor y m d doc day = { classes := holidayWeekendClasses y m d day, text := "" }) ∧
    (dayOffB d doc day = false → d.schedule doc = none →
      cellFor y m d doc day = { classes := holidayWeekendClasses y m d day, text := "" }) := by
  refine ⟨?_, ?_, ?_, ?_, ?_⟩
  · intro hoff
    unfold cellFor
    rw [if_pos hoff]
  · intro hoff f area hf harea hne
    unfold cellFor
    rw [if_neg (by rw [hoff]; exact Bool.false_ne_true), hf]
    simp [harea, hne]
  · intro hoff f hf hday
    unfold cellFor
    rw [if_neg (by rw [hoff]; exact Bool.false_ne_true), hf]
    simp [hday]
  · intro hoff f hf hday
    unfold cellFor
    rw [if_neg (by rw [hoff]; exact Bool.false_ne_true), hf]
    simp [hday]
  · intro hoff hf
    unfold cellFor
    rw [if_neg (by rw [hoff]; exact Bool.false_ne_true), hf]

/-- Concrete payload for the C9 counterexample: five days, day 2 is a
holiday, the single doctor has no days off and is assigned area "A" on
day 2. -/
def c9data : ResultData :=
  { doctors := ["D"],
    doctorArea := fun _ => "North",
    num_days := 5,
    holidays := [2],
    days_off := fun _ => some [],
    schedule := fun doc =>
      if doc == "D" then some (fun day => if day == 2 then some "A" else none)
      else none }

/-- C9 as stated is false: in the rendered results table for January 2025
over `c9data`, the cell of doctor "D" on the holiday day 2 carries the
holiday styling class and still shows the assigned-area label "A" — the
holiday styling does not take priority over the area label. -/
theorem C9_counterexample :
    cellFor 2025 1 c9data "D" 2 =
      { classes := ["cell-holiday", "cell-area-A"], text := "A" } ∧
    ("D", (List.range' 1 5).map (cellFor 2025 1 c9data "D")) ∈
      (renderScheduleTable 2025 1 c9data "all" "all").rows := by
  constructor
  · decide
  · decide

theorem C9_witness :
    dayOffB c9data "D" 2 = false ∧
    cellFor 2025 1 c9data "D" 2 =
      { classes := holidayWeekendClasses 2025 1 c9data 2 ++ ["cell-area-" ++ "A"],
        text := "A" } :=
  ⟨by decide,
    (C9_cell_classification 2025 1 c9data "D" 2).2.1 (by decide)
      (fun day => if day == 2 then some "A" else none) "A" rfl (by decide) (by decide)⟩

theorem C5_witness :
    (deliver initAdminState.nextStream
      (RunEvent.done "success" ""
        (some ⟨[], fun _ => "", 0, [], fun _ => none, fun _ => none⟩))
      (deliver initAdminState.nextStream (RunEvent.message "B")
        (deliver initAdminState.nextStream (RunEvent.message "A")
          (runScheduler initAdminState)))).logOutput = "A\nB\n" :=
  (C5_success_stream_log initAdminState
    ⟨[], fun _ => "", 0, [], fun _ => none, fun _ => none⟩).2.2.1

theorem C7_witness :
    (submitDaysOff SubmitOutcome.success ⟨false, [], none⟩).submitDisabled = false ∧
    (submitDaysOff SubmitOutcome.success
      ⟨false, [], none⟩).observedDisabledDuringFetch = some true :=
  C7_submit_button_lifecycle SubmitOutcome.success ⟨false, [], none⟩

theorem C10_witness :
    (updateSubmissionStatus []).1 = false ↔
      ([] : List (String × SubmissionInfo)) ≠ [] ∧
      ∀ x ∈ ([] : List (String × SubmissionInfo)), x.2.submitted = true :=
  C10_run_button_gate []

end MainJs
